import Mathlib

/-!
# ROSE-HistoricMode: verification of the spec against the plugin source

Shallow embedding of the ROSE-HistoricMode Pengu Loader plugin
(`src/unnamed/part_001`).  Four models are developed:

* a DOM element model with the decoration apply/clear routines
  (`applyFlagOnElement`, `hideFlagOnElement`);
* the bridge-port resolver (`loadBridgePort`) over an explicit probe
  environment;
* the bridge outbound queue (`bridgeSend`, `flushBridgeQueue`);
* the view-synchronizer event machine (`updateHistoricFlag`,
  `handlePhaseChange`, `handleHistoricStateUpdate`, `handleLocalAssetUrl`)
  with the DOM abstracted as an element-lookup oracle.
-/

namespace Rose

/-! ## DOM element model

An inline style declaration is an ordered association list of
(property, value) pairs; `setProp` models `style.setProperty` (replace in
place or append), `removeProp` models `style.removeProperty`, `getProp`
models `style.getPropertyValue` (with `none` for an absent property, where
the DOM returns the empty string). -/

abbrev Styles := List (String × String)

def getProp : Styles → String → Option String
  | [], _ => none
  | kv :: rest, p => if kv.1 = p then some kv.2 else getProp rest p

def hasProp : Styles → String → Bool
  | [], _ => false
  | kv :: rest, p => kv.1 == p || hasProp rest p

def replaceProp : Styles → String → String → Styles
  | [], _, _ => []
  | kv :: rest, p, v =>
    if kv.1 = p then (p, v) :: replaceProp rest p v else kv :: replaceProp rest p v

def setProp (st : Styles) (p v : String) : Styles :=
  if hasProp st p then replaceProp st p v else st ++ [(p, v)]

def removeProp : Styles → String → Styles
  | [], _ => []
  | kv :: rest, p => if kv.1 = p then removeProp rest p else kv :: removeProp rest p

/-- A DOM element, reduced to what the plugin touches: its class list and
its inline style declaration. -/
structure Element where
  classes : List String
  style : Styles
deriving DecidableEq

/-- `classList.add`: appends the class unless already present. -/
def classAdd (cs : List String) (c : String) : List String :=
  if cs.contains c then cs else cs ++ [c]

/-- `classList.remove`: removes every occurrence of the class. -/
def classRemove (cs : List String) (c : String) : List String :=
  cs.filter (fun x => x != c)

/-- Substring test on character lists (JavaScript `String.includes`). -/
def occursIn (pat : List Char) : List Char → Bool
  | [] => pat.isEmpty
  | c :: rest => pat.isPrefixOf (c :: rest) || occursIn pat rest

/-- JavaScript `s.includes(pat)`. -/
def strIncludes (s pat : String) : Bool :=
  occursIn pat.toList s.toList

/-- The style mutations of the decoration-apply block of
`updateHistoricFlag` (src/unnamed/part_001 lines 531-549): force the
element visible and set the flag presentation properties using the
resolved image URL. -/
def flagApplyStyle (url : String) (st0 : Styles) : Styles :=
  let st := setProp st0 "display" "block"
  let st := setProp st "visibility" "visible"
  let st := setProp st "opacity" "1"
  let st := setProp st "background-image" ("url(\"" ++ url ++ "\")")
  let st := setProp st "background-repeat" "no-repeat"
  let st := setProp st "background-size" "contain"
  let st := setProp st "height" "32px"
  let st := setProp st "width" "32px"
  let st := setProp st "position" "absolute"
  let st := setProp st "right" "-14px"
  let st := setProp st "top" "-14px"
  let st := setProp st "pointer-events" "none"
  let st := setProp st "cursor" "default"
  let st := setProp st "-webkit-user-select" "none"
  let st := setProp st "list-style-type" "none"
  let st := setProp st "content" " "
  st

/-- The decoration-apply block (lines 531-549): the style mutations plus
the marker class (`classList.add` happens between the visibility overrides
and the presentation properties, which touch disjoint element fields). -/
def applyFlagOnElement (url : String) (e : Element) : Element :=
  ⟨classAdd e.classes "lu-historic-flag-active", flagApplyStyle url e.style⟩

/-- The no-coexisting-flag branch of `hideFlagOnElement` (lines 572-590):
remove every property the plugin sets, then force the element hidden. -/
def flagClearStyle (st0 : Styles) : Styles :=
  let st := removeProp st0 "background-image"
  let st := removeProp st "background-repeat"
  let st := removeProp st "background-size"
  let st := removeProp st "height"
  let st := removeProp st "width"
  let st := removeProp st "position"
  let st := removeProp st "right"
  let st := removeProp st "top"
  let st := removeProp st "pointer-events"
  let st := removeProp st "cursor"
  let st := removeProp st "-webkit-user-select"
  let st := removeProp st "list-style-type"
  let st := removeProp st "content"
  let st := setProp st "display" "none"
  let st := setProp st "visibility" "hidden"
  let st := setProp st "opacity" "0"
  st

/-- `hideFlagOnElement` (src/unnamed/part_001 lines 563-600): remove the
marker class; if the coexisting random-flag marker is absent, remove every
property the plugin sets and force the element hidden; otherwise remove
only the background image, and only when its value references
`historic_flag.png`. -/
def hideFlagOnElement (e : Element) : Element :=
  let classes := classRemove e.classes "lu-historic-flag-active"
  let hasRandomFlag := classes.contains "lu-random-flag-active"
  if hasRandomFlag then
    let bgImage := (getProp e.style "background-image").getD ""
    if bgImage != "" && strIncludes bgImage "historic_flag.png" then
      ⟨classes, removeProp e.style "background-image"⟩
    else
      ⟨classes, e.style⟩
  else
    ⟨classes, flagClearStyle e.style⟩

/-! ## Bridge port resolver

`loadBridgePort` (src/unnamed/part_001 lines 23-149) is modelled over an
explicit environment: the localStorage cache content and, for each
(port, path) pair, the outcome of the HTTP probe.  A probe either throws
(`ProbeResult.err`: timeout, network failure) or yields a response with an
`ok` flag (2xx status) and a text body.  The `legacy` flag selects the
`/port` path instead of `/bridge-port`. -/

inductive ProbeResult where
  | err : ProbeResult
  | response (ok : Bool) (body : String) : ProbeResult
deriving DecidableEq

structure Env where
  cache : Option String
  probe : Nat → Bool → ProbeResult

/-- Decimal value of a digit list prefix. -/
def digitsVal : List Char → Nat → Nat
  | [], acc => acc
  | c :: cs, acc => digitsVal cs (acc * 10 + (c.toNat - 48))

/-- Whitespace for the purposes of `trim`. -/
def isSpaceChar (c : Char) : Bool :=
  c = ' ' || c = '\t' || c = '\n' || c = '\r'

/-- `String.trim` modelled on the underlying character list. -/
def trimChars (cs : List Char) : List Char :=
  ((cs.dropWhile isSpaceChar).reverse.dropWhile isSpaceChar).reverse

/-- JavaScript `parseInt(s, 10)` applied after `trim()`: optional sign,
then a leading run of decimal digits; `none` models `NaN`. -/
def jsParseInt (s : String) : Option Int :=
  let cs := trimChars s.toList
  let core := fun (l : List Char) (sign : Int) =>
    let ds := l.takeWhile Char.isDigit
    if ds.isEmpty then none else some (sign * (digitsVal ds 0 : Int))
  match cs with
  | '-' :: rest => core rest (-1)
  | '+' :: rest => core rest 1
  | _ => core cs 1

/-- The `!isNaN(port) && port > 0` validity check applied to a parse
result. -/
def validPort : Option Int → Option Nat
  | some n => if 0 < n then some n.toNat else none
  | none => none

/-- Classification of one probe: a port is obtained only from a non-throwing
2xx response whose trimmed body parses to a positive integer; a thrown
error, a non-2xx response and a malformed body all yield `none`. -/
def probeOutcome : ProbeResult → Option Nat
  | ProbeResult.err => none
  | ProbeResult.response ok body =>
    if ok then validPort (jsParseInt body) else none

/-- The discovery sweep candidate ports: `DISCOVERY_START_PORT + 1` (50001)
up to `DISCOVERY_END_PORT` (50010); 50000 is skipped because the default
port was already probed. -/
def discoveryPorts : List Nat :=
  (List.range 10).map (fun i => 50001 + i)

/-- `Promise.allSettled` over the sweep followed by the first-fulfilled
scan: the probes run concurrently but the results are inspected in port
order, adopting the first successful outcome. -/
def firstSuccess (probe : Nat → Bool → ProbeResult) (legacy : Bool) :
    List Nat → Option Nat
  | [] => none
  | p :: ps =>
    match probeOutcome (probe p legacy) with
    | some q => some q
    | none => firstSuccess probe legacy ps

/-- Result of `loadBridgePort`: the adopted `BRIDGE_PORT`, the boolean
return value, and the localStorage cache content afterwards. -/
structure ResolveResult where
  port : Nat
  success : Bool
  cache : Option String
deriving DecidableEq

/-- Step 1 of `loadBridgePort` (lines 26-50): validate and probe the cached
port.  Returns the cache content after the step and the successfully
fetched port, if any.  The cache is removed only in the `catch` branch,
i.e. only when the probe throws. -/
def step1Cache (env : Env) : Option String × Option Nat :=
  match env.cache with
  | some c =>
    match validPort (jsParseInt c) with
    | some p =>
      match env.probe p false with
      | ProbeResult.err => (none, none)
      | ProbeResult.response ok body =>
        if ok then
          match validPort (jsParseInt body) with
          | some q => (env.cache, some q)
          | none => (env.cache, none)
        else (env.cache, none)
    | none => (env.cache, none)
  | none => (none, none)

/-- `loadBridgePort` (lines 23-149): cached port, then the default port
50000, then the concurrent discovery sweep on `/bridge-port`, then the
legacy sweep on `/port`, each short-circuiting on success; discovered ports
from steps 2-4 are persisted to localStorage; total failure keeps the
default port 50000 and returns `false`. -/
def loadBridgePort (env : Env) : ResolveResult :=
  match step1Cache env with
  | (cacheNow, some q) => ⟨q, true, cacheNow⟩
  | (cacheNow, none) =>
    match probeOutcome (env.probe 50000 false) with
    | some q => ⟨q, true, some (toString q)⟩
    | none =>
      match firstSuccess env.probe false discoveryPorts with
      | some q => ⟨q, true, some (toString q)⟩
      | none =>
        match firstSuccess env.probe true discoveryPorts with
        | some q => ⟨q, true, some (toString q)⟩
        | none => ⟨50000, false, cacheNow⟩

/-- The cached port as validated by step 1 before probing. -/
def cachedParsed (env : Env) : Option Nat :=
  match env.cache with
  | some c => validPort (jsParseInt c)
  | none => none

/-- Classified outcome of the cached-port probe. -/
def cachedOutcome (env : Env) : Option Nat :=
  match cachedParsed env with
  | some p => probeOutcome (env.probe p false)
  | none => none

/-- Whether the cached-port probe threw (timeout / network error). -/
def cachedThrew (env : Env) : Bool :=
  match cachedParsed env with
  | some p =>
    match env.probe p false with
    | ProbeResult.err => true
    | ProbeResult.response _ _ => false
  | none => false

/-- Classified outcome of the default-port (50000) probe. -/
def defaultOutcome (env : Env) : Option Nat :=
  probeOutcome (env.probe 50000 false)

/-- Classified outcome of the discovery sweep. -/
def sweepOutcome (env : Env) : Option Nat :=
  firstSuccess env.probe false discoveryPorts

/-- Classified outcome of the legacy sweep. -/
def legacyOutcome (env : Env) : Option Nat :=
  firstSuccess env.probe true discoveryPorts

/-! ## Bridge client outbound queue

The send pattern used by `log` (lines 184-188) and
`requestHistoricFlagImage` (lines 457-461), and the `onopen` handler
(lines 203-207) with `flushBridgeQueue` (lines 242-249).  `ready` stands
for `bridgeReady && bridgeSocket && bridgeSocket.readyState === OPEN`;
`sent` records the messages transmitted over the socket, in order. -/

structure BState where
  ready : Bool
  queue : List String
  sent : List String
deriving DecidableEq

/-- The send pattern: transmit immediately when the connection is ready,
otherwise push onto `bridgeQueue`. -/
def bridgeSend (s : BState) (m : String) : BState :=
  if s.ready then { s with sent := s.sent ++ [m] }
  else { s with queue := s.queue ++ [m] }

/-- `flushBridgeQueue`: when the queue is non-empty and the connection is
ready, send every queued message in order, then clear the queue. -/
def flushBridgeQueue (s : BState) : BState :=
  if s.queue ≠ [] ∧ s.ready then
    { s with sent := s.sent ++ s.queue, queue := [] }
  else s

/-- The `onopen` handler: mark ready, then flush. -/
def bridgeOnOpen (s : BState) : BState :=
  flushBridgeQueue { s with ready := true }

/-! ## View synchronizer event machine

The mutable module state touched by `handlePhaseChange`,
`handleHistoricStateUpdate`, `handleLocalAssetUrl`, `updateHistoricFlag`,
`requestHistoricFlagImage` and the skin-name popup, with the DOM abstracted
as an oracle: each step that calls `findRewardsElement` receives the
element-lookup result (`none` = not found, `some id` = the found node's
identity).  The popup label is `some text` when the element with id
`historic-popup-layer` exists. -/

structure PState where
  isInChampSelect : Bool := false
  historicModeActive : Bool := false
  historicFlagImageUrl : Option String := none
  pendingRequest : Bool := false
  retryCount : Nat := 0
  currentElem : Option Nat := none
  label : Option String := none
deriving DecidableEq

/-- Observable effects of one handler/timer step. -/
structure UOut where
  applied : Bool := false
  appliedUrl : Option String := none
  requested : Bool := false
  scheduledRetry : Bool := false
  gaveUp : Bool := false
  hidFlag : Bool := false
  hidPrev : Bool := false
  scheduledUpdate : Bool := false
  labelTimerReset : Bool := false
deriving DecidableEq

/-- `requestHistoricFlagImage` (lines 444-463): emit a
`request-local-asset` message only when the URL is unresolved and no
request is pending; mark the request pending.  Returns whether the message
was emitted. -/
def requestHistoricFlagImage (s : PState) : PState × Bool :=
  if s.historicFlagImageUrl = none ∧ s.pendingRequest = false then
    ({ s with pendingRequest := true }, true)
  else (s, false)

/-- `handleHistoricSkinNameUpdate` (lines 434-440) acting on the popup
label: a present, non-empty, non-"None" name shows/updates the popup and
resets its auto-expiry timer (`showSkinName`, lines 371-432); otherwise the
popup is removed (`removeHistoricSkinName`).  Returns the new label and
whether the expiry timer was (re)armed. -/
def handleHistoricSkinNameUpdate (skinName : Option String) :
    Option String × Bool :=
  match skinName with
  | some n => if n ≠ "" ∧ n ≠ "None" then (some n, true) else (none, false)
  | none => (none, false)

/-- `updateHistoricFlag` (lines 465-561) with the DOM element lookup as
oracle `found`.  Mirrors the source: bail out when not in ChampSelect;
`findRewardsElement` (lines 330-370) removes the popup label when nothing
is found; bounded retry (max 5) with a 500 ms rescheduled retry; on a found
element reset the counter, hide the flag on a changed previous element,
then either request the image, apply the decoration with the resolved URL,
or hide the flag depending on `historicModeActive` and the URL. -/
def updateHistoricFlag (s : PState) (found : Option Nat) : PState × UOut :=
  if s.isInChampSelect = false then (s, {})
  else
    match found with
    | none =>
      let s := { s with label := none }
      if s.retryCount < 5 then
        ({ s with retryCount := s.retryCount + 1 }, { scheduledRetry := true })
      else
        ({ s with retryCount := 0 }, { gaveUp := true })
    | some el =>
      let hidPrev :=
        match s.currentElem with
        | some prev => prev != el
        | none => false
      let s := { s with retryCount := 0, currentElem := some el }
      if s.historicModeActive then
        match s.historicFlagImageUrl with
        | none =>
          let r := requestHistoricFlagImage s
          (r.1, { requested := r.2, hidPrev := hidPrev })
        | some url =>
          (s, { applied := true, appliedUrl := some url, hidPrev := hidPrev })
      else
        (s, { hidFlag := true, hidPrev := hidPrev })

/-- Phase membership test (line 264): `"ChampSelect"` or `"FINALIZATION"`. -/
def phaseMember (phase : String) : Bool :=
  phase == "ChampSelect" || phase == "FINALIZATION"

/-- `handlePhaseChange` (lines 261-286): update `isInChampSelect`; on
entry, schedule a deferred `updateHistoricFlag` when historic mode is
active; on exit, hide the flag on the cached element, drop the reference,
and reset the retry counter. -/
def handlePhaseChange (s : PState) (phase : String) : PState × UOut :=
  let wasIn := s.isInChampSelect
  let inNow := phaseMember phase
  let s := { s with isInChampSelect := inNow }
  if inNow && !wasIn then
    (s, { scheduledUpdate := s.historicModeActive })
  else if !inNow && wasIn then
    let hid := s.currentElem.isSome
    ({ s with currentElem := none, retryCount := 0 }, { hidFlag := hid })
  else
    (s, {})

/-- `handleHistoricStateUpdate` (lines 304-328): update the popup label,
set `historicModeActive` from `data.active === true`, and schedule one
deferred `updateHistoricFlag` (plus a second one when active). -/
def handleHistoricStateUpdate (s : PState) (active : Bool)
    (skinName : Option String) : PState × UOut :=
  let lr := handleHistoricSkinNameUpdate skinName
  let s := { s with label := lr.1, historicModeActive := active }
  (s, { scheduledUpdate := true, labelTimerReset := lr.2 })

/-- `handleLocalAssetUrl` (lines 288-302): only a message whose `assetPath`
equals `historic_flag.png` and whose `url` is truthy stores the URL and
clears the pending marker; it then synchronously runs `updateHistoricFlag`
when in ChampSelect with historic mode active. -/
def handleLocalAssetUrl (s : PState) (assetPath : String)
    (url : Option String) (found : Option Nat) : PState × UOut :=
  let urlTruthy : Bool := match url with | some u => u != "" | none => false
  if assetPath == "historic_flag.png" && urlTruthy then
    let s := { s with historicFlagImageUrl := url, pendingRequest := false }
    if s.isInChampSelect && s.historicModeActive then
      updateHistoricFlag s found
    else (s, {})
  else (s, {})

/-- Inbound events and timer firings.  `timerUpdate` covers every deferred
callback whose body is a bare `updateHistoricFlag()` call (the 100 ms /
1000 ms timers and the MutationObserver trigger); `timerRetry` is the
500 ms retry callback, which re-checks `isInChampSelect` and resets the
counter when the phase was left. -/
inductive PEvent where
  | phaseChange (phase : String) : PEvent
  | historicState (active : Bool) (skinName : Option String) : PEvent
  | localAssetUrl (assetPath : String) (url : Option String) : PEvent
  | timerUpdate : PEvent
  | timerRetry : PEvent
deriving DecidableEq

/-- One event step together with the element-lookup oracle for this step. -/
structure PInput where
  ev : PEvent
  found : Option Nat
deriving DecidableEq

/-- Dispatch of one inbound message or timer firing
(`handleBridgeMessage`, lines 251-259, and the timer callbacks at lines
270-272, 318-327, 486-492). -/
def pstep (s : PState) (inp : PInput) : PState × UOut :=
  match inp.ev with
  | PEvent.phaseChange phase => handlePhaseChange s phase
  | PEvent.historicState active skinName =>
    handleHistoricStateUpdate s active skinName
  | PEvent.localAssetUrl assetPath url =>
    handleLocalAssetUrl s assetPath url inp.found
  | PEvent.timerUpdate => updateHistoricFlag s inp.found
  | PEvent.timerRetry =>
    if s.isInChampSelect then updateHistoricFlag s inp.found
    else ({ s with retryCount := 0 }, {})

/-- The module state at plugin initialization. -/
def initPState : PState := {}

/-- Run a sequence of events, collecting each step's observable output. -/
def runTrace (s : PState) : List PInput → PState × List UOut
  | [] => (s, [])
  | inp :: rest =>
    let r := pstep s inp
    let rr := runTrace r.1 rest
    (rr.1, r.2 :: rr.2)

/-- Phase membership carried by the most recently received `phase-change`
message of a trace (`false` before any such message). -/
def lastPhaseIn (tr : List PInput) : Bool :=
  tr.foldl
    (fun b inp =>
      match inp.ev with
      | PEvent.phaseChange p => phaseMember p
      | _ => b)
    false

/-- The C5 scenario trace: enter ChampSelect, receive an active
historic-state (no skin name), let both deferred synchronizations fire with
the target element present, then receive the matching asset URL. -/
def trC5 : List PInput :=
  [⟨PEvent.phaseChange "ChampSelect", none⟩,
   ⟨PEvent.historicState true none, none⟩,
   ⟨PEvent.timerUpdate, some 1⟩,
   ⟨PEvent.timerUpdate, some 1⟩,
   ⟨PEvent.localAssetUrl "historic_flag.png" (some "http://host/img.png"),
    some 1⟩]

/-- A "find target element" campaign with the element absent on every
attempt: one call to `updateHistoricFlag`, chained with the retries it
schedules, counting the invocations of the find-and-apply step. -/
def campaignCalls (s : PState) : Nat → Nat
  | 0 => 0
  | Nat.succ fuel =>
    let r := updateHistoricFlag s none
    if r.2.scheduledRetry then 1 + campaignCalls r.1 fuel else 1

/-- An inbound message that resolves the tracked asset: type
`local-asset-url`, `assetPath` equal to `historic_flag.png`, and a truthy
`url`. -/
def resolvesAsset (inp : PInput) : Prop :=
  ∃ u, inp.ev = PEvent.localAssetUrl "historic_flag.png" (some u) ∧ u ≠ ""

/-- A state with the popup label shown, in the target phase, historic mode
active. -/
def sC9 : PState :=
  { isInChampSelect := true, historicModeActive := true, label := some "Lux" }

/-- The style properties removed by `hideFlagOnElement` when no coexisting
decoration is present (lines 574-586). -/
def flagRemovedProps : List String :=
  ["background-image", "background-repeat", "background-size", "height",
   "width", "position", "right", "top", "pointer-events", "cursor",
   "-webkit-user-select", "list-style-type", "content"]

/-- Whether the stored background image references this decoration's known
image path: the gate used by `hideFlagOnElement` in the coexistence branch
(lines 594-595). -/
def bgGate (st : Styles) : Bool :=
  (getProp st "background-image").getD "" != ""
    && strIncludes ((getProp st "background-image").getD "")
        "historic_flag.png"

/-- The claim C6 scenario environment: localStorage caches port 50002
whose probe times out; the default-port probe also fails; the discovery
sweep succeeds at port 50003. -/
def envW6 : Env :=
  ⟨some "50002", fun p legacy =>
    if p == 50003 && !legacy then ProbeResult.response true "50003"
    else ProbeResult.err⟩

/-- An environment whose cached probe fails with a non-2xx response (as do
all other probes). -/
def envC7 : Env := ⟨some "50002", fun _ _ => ProbeResult.response false ""⟩

/-- Environment where every probe throws (timeout). -/
def envW7a : Env := ⟨none, fun _ _ => ProbeResult.err⟩

/-- Environment where every probe returns 200 with a malformed body. -/
def envW7b : Env := ⟨none, fun _ _ => ProbeResult.response true "xx"⟩

/-! ### Style-map lemmas -/

theorem getProp_replaceProp_self (st : Styles) (p v : String)
    (h : hasProp st p = true) : getProp (replaceProp st p v) p = some v := by
  induction st with
  | nil => simp [hasProp] at h
  | cons kv rest ih =>
    by_cases hk : kv.1 = p
    · simp [replaceProp, getProp, hk]
    · have h' : hasProp rest p = true := by
        simpa [hasProp, hk] using h
      simp [replaceProp, getProp, hk, ih h']

theorem getProp_append_single_self (st : Styles) (p v : String)
    (h : hasProp st p = false) : getProp (st ++ [(p, v)]) p = some v := by
  induction st with
  | nil => simp [getProp]
  | cons kv rest ih =>
    have hk : ¬ kv.1 = p := by
      intro hk
      simp [hasProp, hk] at h
    have h' : hasProp rest p = false := by
      simpa [hasProp, hk] using h
    simp [getProp, hk, ih h']

theorem getProp_setProp_self (st : Styles) (p v : String) :
    getProp (setProp st p v) p = some v := by
  unfold setProp
  cases h : hasProp st p
  · simp only [Bool.false_eq_true, if_false]
    exact getProp_append_single_self st p v h
  · simp only [if_true]
    exact getProp_replaceProp_self st p v h

theorem getProp_replaceProp_ne (st : Styles) (p q v : String) (hpq : p ≠ q) :
    getProp (replaceProp st q v) p = getProp st p := by
  induction st with
  | nil => rfl
  | cons kv rest ih =>
    by_cases hk : kv.1 = q
    · have hkp : ¬ kv.1 = p := by rw [hk]; exact Ne.symm hpq
      simp [replaceProp, getProp, hk, hkp, Ne.symm hpq, ih]
    · simp only [replaceProp, hk, if_false, getProp]
      by_cases hkp : kv.1 = p
      · simp [hkp]
      · simp [hkp, ih]

theorem getProp_append_single_ne (st : Styles) (p q v : String) (hpq : p ≠ q) :
    getProp (st ++ [(q, v)]) p = getProp st p := by
  induction st with
  | nil => simp [getProp, Ne.symm hpq]
  | cons kv rest ih =>
    by_cases hkp : kv.1 = p
    · simp [getProp, hkp]
    · simp [getProp, hkp, ih]

theorem getProp_setProp_ne (st : Styles) (p q v : String) (hpq : p ≠ q) :
    getProp (setProp st q v) p = getProp st p := by
  unfold setProp
  cases h : hasProp st q
  · simp only [Bool.false_eq_true, if_false]
    exact getProp_append_single_ne st p q v hpq
  · simp only [if_true]
    exact getProp_replaceProp_ne st p q v hpq

theorem getProp_setProp (st : Styles) (p q v : String) :
    getProp (setProp st q v) p = if p = q then some v else getProp st p := by
  by_cases hpq : p = q
  · subst hpq; simp [getProp_setProp_self]
  · simp [hpq, getProp_setProp_ne st p q v hpq]

theorem getProp_removeProp (st : Styles) (p q : String) :
    getProp (removeProp st q) p = if p = q then none else getProp st p := by
  induction st with
  | nil => simp [removeProp, getProp]
  | cons kv rest ih =>
    by_cases hk : kv.1 = q
    · by_cases hpq : p = q
      · simpa [removeProp, hk, hpq] using ih
      · have hkp : ¬ kv.1 = p := by rw [hk]; exact Ne.symm hpq
        simp only [removeProp, hk, if_true, getProp]
        rw [if_neg (Ne.symm hpq)]
        simpa [hpq] using ih
    · simp only [removeProp, hk, if_false, getProp]
      by_cases hkp : kv.1 = p
      · have hpq : ¬ p = q := fun h => hk (by rw [hkp, h])
        simp [hkp, hpq]
      · simp [hkp, ih]

theorem classes_filter_of_not_mem {cs : List String} {c : String}
    (h : ¬ cs.contains c) : cs.filter (fun x => x != c) = cs := by
  induction cs with
  | nil => rfl
  | cons x rest ih =>
    simp only [List.contains_cons, Bool.or_eq_true, not_or] at h
    have hx : (x != c) = true := by
      simp only [bne_iff_ne, ne_eq]
      intro hxc
      exact h.1 (by simp [hxc])
    simp only [List.filter_cons, hx, if_true]
    rw [ih (by simpa using h.2)]

theorem step1Cache_eq (env : Env) :
    step1Cache env
      = ((if cachedThrew env then none else env.cache), cachedOutcome env) := by
  unfold step1Cache cachedThrew cachedOutcome cachedParsed
  cases hc : env.cache with
  | none => rfl
  | some c =>
    cases hv : validPort (jsParseInt c) with
    | none => simp [hv]
    | some p =>
      cases hp : env.probe p false with
      | err => simp [hv, hp, probeOutcome]
      | response ok body =>
        cases ok with
        | false => simp [hv, hp, probeOutcome]
        | true =>
          cases hb : validPort (jsParseInt body) <;>
            simp [hv, hp, probeOutcome, hb]

/-! ### Synchronizer helper lemmas -/

theorem updateHistoricFlag_isInChampSelect (s : PState) (f : Option Nat) :
    (updateHistoricFlag s f).1.isInChampSelect = s.isInChampSelect := by
  unfold updateHistoricFlag requestHistoricFlagImage
  cases hin : s.isInChampSelect
  · simp [hin]
  · cases f with
    | none =>
      by_cases hr : s.retryCount < 5 <;> simp [hin, hr]
    | some el =>
      cases hact : s.historicModeActive <;>
        cases hurl : s.historicFlagImageUrl <;>
          simp [hin, hact, hurl]
      by_cases hp : s.pendingRequest = false <;> simp [hp]

theorem updateHistoricFlag_applied (s : PState) (f : Option Nat) :
    (updateHistoricFlag s f).2.applied = true → s.isInChampSelect = true := by
  intro h
  cases hin : s.isInChampSelect
  · exfalso
    unfold updateHistoricFlag at h
    rw [if_pos hin] at h
    simp at h
  · rfl

theorem updateHistoricFlag_none_eq (s : PState) (hin : s.isInChampSelect = true) :
    updateHistoricFlag s none
      = if s.retryCount < 5 then
          ({ s with label := none, retryCount := s.retryCount + 1 },
           { scheduledRetry := true })
        else
          ({ s with label := none, retryCount := 0 }, { gaveUp := true }) := by
  rw [updateHistoricFlag, if_neg (by simp [hin])]

theorem updateHistoricFlag_found_retry (s : PState) (el : Nat)
    (hin : s.isInChampSelect = true) :
    (updateHistoricFlag s (some el)).1.retryCount = 0 := by
  unfold updateHistoricFlag requestHistoricFlagImage
  rw [if_neg (by simp [hin])]
  cases hact : s.historicModeActive <;>
    cases hurl : s.historicFlagImageUrl <;>
      simp [hact, hurl]
  by_cases hp : s.pendingRequest = false <;> simp [hp]

theorem updateHistoricFlag_label_found (s : PState) (el : Nat) :
    (updateHistoricFlag s (some el)).1.label = s.label := by
  unfold updateHistoricFlag requestHistoricFlagImage
  cases hin : s.isInChampSelect
  · simp [hin]
  · cases hact : s.historicModeActive <;>
      cases hurl : s.historicFlagImageUrl <;>
        simp [hin, hact, hurl]
    by_cases hp : s.pendingRequest = false <;> simp [hp]

theorem updateHistoricFlag_pending (s : PState) (f : Option Nat)
    (hp : s.pendingRequest = true) :
    (updateHistoricFlag s f).2.requested = false
      ∧ (updateHistoricFlag s f).1.pendingRequest = true := by
  unfold updateHistoricFlag requestHistoricFlagImage
  cases hin : s.isInChampSelect
  · simp [hin, hp]
  · cases f with
    | none => by_cases hr : s.retryCount < 5 <;> simp [hin, hr, hp]
    | some el =>
      cases hact : s.historicModeActive <;>
        cases hurl : s.historicFlagImageUrl <;>
          simp [hin, hact, hurl, hp]

theorem pstep_isInChampSelect (s : PState) (inp : PInput) :
    (pstep s inp).1.isInChampSelect
      = match inp.ev with
        | PEvent.phaseChange p => phaseMember p
        | _ => s.isInChampSelect := by
  obtain ⟨ev, found⟩ := inp
  cases ev with
  | phaseChange p =>
    simp only [pstep]
    unfold handlePhaseChange
    cases hin : s.isInChampSelect <;> cases hm : phaseMember p <;> simp [hin, hm]
  | historicState a nm =>
    simp only [pstep]
    unfold handleHistoricStateUpdate
    simp
  | localAssetUrl ap u =>
    simp only [pstep]
    unfold handleLocalAssetUrl
    by_cases hmatch : (ap == "historic_flag.png"
        && (match u with | some v => v != "" | none => false)) = true
    · rw [if_pos hmatch]
      by_cases hgo : (s.isInChampSelect && s.historicModeActive) = true
      · rw [if_pos hgo, updateHistoricFlag_isInChampSelect]
      · rw [if_neg hgo]
    · rw [if_neg hmatch]
  | timerUpdate =>
    simp only [pstep]
    exact updateHistoricFlag_isInChampSelect s found
  | timerRetry =>
    simp only [pstep]
    by_cases hin : s.isInChampSelect = true
    · rw [if_pos hin, updateHistoricFlag_isInChampSelect]
    · rw [if_neg hin]

theorem pstep_applied (s : PState) (inp : PInput) :
    (pstep s inp).2.applied = true → s.isInChampSelect = true := by
  obtain ⟨ev, found⟩ := inp
  intro h
  cases ev with
  | phaseChange p =>
    simp only [pstep] at h
    unfold handlePhaseChange at h
    cases hin : s.isInChampSelect <;> cases hm : phaseMember p <;>
      simp [hin, hm] at h
  | historicState a nm =>
    simp only [pstep] at h
    unfold handleHistoricStateUpdate at h
    simp at h
  | localAssetUrl ap u =>
    simp only [pstep] at h
    unfold handleLocalAssetUrl at h
    cases u with
    | none => simp at h
    | some v =>
      by_cases hmatch : (ap == "historic_flag.png" && (v != "")) = true
      · by_cases hgo : (s.isInChampSelect && s.historicModeActive) = true
        · simp only [hmatch, hgo, if_true] at h
          have := updateHistoricFlag_applied _ _ h
          simpa using this
        · simp [hmatch, hgo] at h
      · simp [hmatch] at h
  | timerUpdate =>
    simp only [pstep] at h
    exact updateHistoricFlag_applied s found h
  | timerRetry =>
    simp only [pstep] at h
    by_cases hin : s.isInChampSelect = true
    · exact hin
    · rw [if_neg hin] at h
      simp at h

theorem campaignCalls_eq (fuel : Nat) :
    ∀ s : PState, s.isInChampSelect = true → s.retryCount ≤ 5 →
      6 - s.retryCount ≤ fuel → campaignCalls s fuel = 6 - s.retryCount := by
  induction fuel with
  | zero =>
    intro s _ hle hfuel
    omega
  | succ fuel ih =>
    intro s hin hle hfuel
    rw [campaignCalls]
    rw [updateHistoricFlag_none_eq s hin]
    by_cases hr : s.retryCount < 5
    · rw [if_pos hr]
      simp only [if_true]
      rw [ih { s with label := none, retryCount := s.retryCount + 1 }
        (by simpa using hin) (by simp; omega) (by simp; omega)]
      simp only
      omega
    · rw [if_neg hr]
      simp only [Bool.false_eq_true, if_false]
      omega

theorem handlePhaseChange_exit_retry (s : PState) (p : String)
    (hin : s.isInChampSelect = true) (hm : phaseMember p = false) :
    (handlePhaseChange s p).1.retryCount = 0 := by
  unfold handlePhaseChange
  simp [hin, hm]

theorem updateHistoricFlag_label_cases (s : PState) (f : Option Nat) :
    (updateHistoricFlag s f).1.label = s.label
      ∨ (updateHistoricFlag s f).1.label = none := by
  cases f with
  | none =>
    cases hin : s.isInChampSelect
    · left
      unfold updateHistoricFlag
      rw [if_pos hin]
    · right
      rw [updateHistoricFlag_none_eq s hin]
      by_cases hr : s.retryCount < 5 <;> simp [hr]
  | some el => left; exact updateHistoricFlag_label_found s el

theorem handleLocalAssetUrl_nonmatching (s : PState) (ap : String)
    (u : Option String) (f : Option Nat)
    (h : ap ≠ "historic_flag.png" ∨ u = none ∨ u = some "") :
    handleLocalAssetUrl s ap u f = (s, {}) := by
  unfold handleLocalAssetUrl
  rcases h with h | h | h
  · have : (ap == "historic_flag.png") = false := by simpa using h
    simp [this]
  · subst h
    simp
  · subst h
    simp

theorem pstep_pending (s : PState) (inp : PInput)
    (hp : s.pendingRequest = true) (hnr : ¬ resolvesAsset inp) :
    (pstep s inp).2.requested = false
      ∧ (pstep s inp).1.pendingRequest = true := by
  obtain ⟨ev, found⟩ := inp
  cases ev with
  | phaseChange p =>
    simp only [pstep]
    unfold handlePhaseChange
    cases hin : s.isInChampSelect <;> cases hm : phaseMember p <;>
      simp [hin, hm, hp]
  | historicState a nm =>
    simp only [pstep]
    unfold handleHistoricStateUpdate
    simp [hp]
  | localAssetUrl ap u =>
    simp only [pstep]
    cases u with
    | none =>
      rw [handleLocalAssetUrl_nonmatching s ap none found (Or.inr (Or.inl rfl))]
      exact ⟨rfl, hp⟩
    | some v =>
      by_cases hap : ap = "historic_flag.png"
      · by_cases hv : v = ""
        · subst hv
          rw [handleLocalAssetUrl_nonmatching s ap (some "") found
            (Or.inr (Or.inr rfl))]
          exact ⟨rfl, hp⟩
        · exfalso
          exact hnr ⟨v, by rw [hap], hv⟩
      · rw [handleLocalAssetUrl_nonmatching s ap (some v) found (Or.inl hap)]
        exact ⟨rfl, hp⟩
  | timerUpdate =>
    simp only [pstep]
    exact updateHistoricFlag_pending s found hp
  | timerRetry =>
    simp only [pstep]
    by_cases hin : s.isInChampSelect = true
    · rw [if_pos hin]
      exact updateHistoricFlag_pending s found hp
    · rw [if_neg hin]
      exact ⟨rfl, hp⟩

theorem runTrace_no_request (tr : List PInput) :
    ∀ s : PState, s.pendingRequest = true →
      (∀ inp ∈ tr, ¬ resolvesAsset inp) →
      ∀ o ∈ (runTrace s tr).2, o.requested = false := by
  induction tr with
  | nil =>
    intro s _ _ o ho
    simp [runTrace] at ho
  | cons inp rest ih =>
    intro s hp hnr o ho
    rw [runTrace] at ho
    simp only [List.mem_cons] at ho
    have hstep := pstep_pending s inp hp (hnr inp (by simp))
    rcases ho with ho | ho
    · rw [ho]
      exact hstep.1
    · exact ih (pstep s inp).1 hstep.2
        (fun i hi => hnr i (by simp [hi])) o ho

theorem runTrace_isInChampSelect (s : PState) (tr : List PInput) :
    (runTrace s tr).1.isInChampSelect
      = tr.foldl
          (fun b inp =>
            match inp.ev with
            | PEvent.phaseChange p => phaseMember p
            | _ => b)
          s.isInChampSelect := by
  induction tr generalizing s with
  | nil => rfl
  | cons inp rest ih =>
    rw [runTrace]
    simp only [List.foldl_cons]
    rw [ih]
    have hstep := pstep_isInChampSelect s inp
    cases hev : inp.ev <;> rw [hev] at hstep <;> rw [hstep]

theorem pstep_label_nonstate (s : PState) (inp : PInput)
    (h : ∀ a nm, inp.ev ≠ PEvent.historicState a nm) :
    (pstep s inp).1.label = s.label ∨ (pstep s inp).1.label = none := by
  obtain ⟨ev, found⟩ := inp
  cases ev with
  | phaseChange p =>
    left
    simp only [pstep]
    unfold handlePhaseChange
    cases hin : s.isInChampSelect <;> cases hm : phaseMember p <;> simp [hin, hm]
  | historicState a nm => exact absurd rfl (h a nm)
  | localAssetUrl ap u =>
    simp only [pstep]
    unfold handleLocalAssetUrl
    cases u with
    | none => left; simp
    | some v =>
      by_cases hmatch : (ap == "historic_flag.png" && (v != "")) = true
      · by_cases hgo : (s.isInChampSelect && s.historicModeActive) = true
        · simp only [hmatch, hgo, if_true]
          rcases updateHistoricFlag_label_cases
              { s with historicFlagImageUrl := some v, pendingRequest := false }
              found with hl | hl
          · left; rw [hl]
          · right; exact hl
        · left; simp [hmatch, hgo]
      · left; simp [hmatch]
  | timerUpdate =>
    simp only [pstep]
    exact updateHistoricFlag_label_cases s found
  | timerRetry =>
    simp only [pstep]
    by_cases hin : s.isInChampSelect = true
    · rw [if_pos hin]
      exact updateHistoricFlag_label_cases s found
    · left
      rw [if_neg hin]

/-! ## Claim theorems -/

/-- C1: the decoration-apply step executes only while the phase-membership
flag is true; the flag after any trace equals the membership of the most
recently received phase-change message; and any step taken while the flag
is false (in particular a deferred callback firing after the phase flag has
become false) never applies the decoration. -/
theorem claim_C1_phase_guard :
    (∀ (s : PState) (inp : PInput),
        (pstep s inp).2.applied = true → s.isInChampSelect = true)
    ∧ (∀ tr : List PInput,
        (runTrace initPState tr).1.isInChampSelect = lastPhaseIn tr)
    ∧ (∀ (s : PState) (inp : PInput), s.isInChampSelect = false →
        (pstep s inp).2.applied = false) := by
  refine ⟨pstep_applied, ?_, ?_⟩
  · intro tr
    rw [runTrace_isInChampSelect]
    rfl
  · intro s inp hin
    cases h : (pstep s inp).2.applied
    · rfl
    · rw [pstep_applied s inp h] at hin
      cases hin

theorem claim_C1_phase_guard_witness :
    ({ isInChampSelect := true, historicModeActive := true,
       historicFlagImageUrl := some "u" } : PState).isInChampSelect = true :=
  claim_C1_phase_guard.1 _ ⟨PEvent.timerUpdate, some 1⟩ (by decide)

/-- C2: with the element absent on every attempt, a synchronization
campaign invokes the find-and-apply step exactly 6 times (1 initial call
plus 5 scheduled retries) before giving up; the retry counter resets to 0
on a successful find, on a phase-membership-false transition, and when the
deferred retry fires after the phase flag has become false. -/
theorem claim_C2_retry_bound :
    (∀ (s : PState) (fuel : Nat), s.isInChampSelect = true →
        s.retryCount = 0 → 6 ≤ fuel → campaignCalls s fuel = 6)
    ∧ (∀ (s : PState) (el : Nat), s.isInChampSelect = true →
        (updateHistoricFlag s (some el)).1.retryCount = 0)
    ∧ (∀ (s : PState) (p : String) (f : Option Nat),
        s.isInChampSelect = true → phaseMember p = false →
        (pstep s ⟨PEvent.phaseChange p, f⟩).1.retryCount = 0)
    ∧ (∀ (s : PState) (f : Option Nat), s.isInChampSelect = false →
        (pstep s ⟨PEvent.timerRetry, f⟩).1.retryCount = 0) := by
  refine ⟨?_, updateHistoricFlag_found_retry, ?_, ?_⟩
  · intro s fuel hin h0 hf
    have h := campaignCalls_eq fuel s hin (by omega) (by omega)
    rw [h0] at h
    exact h
  · intro s p f hin hm
    simp only [pstep]
    exact handlePhaseChange_exit_retry s p hin hm
  · intro s f hin
    simp only [pstep]
    rw [if_neg (by simp [hin])]

theorem claim_C2_retry_bound_witness :
    campaignCalls { isInChampSelect := true } 10 = 6 :=
  claim_C2_retry_bound.1 { isInChampSelect := true } 10 rfl rfl (by omega)

/-- C5 scenario: from a state with the asset URL unresolved and no pending
request, after `phase-change{ChampSelect}` and `historic-state{active}`
with the target element present, the two deferred synchronizations emit
exactly one `request-local-asset` message (the second is suppressed by the
pending marker), the decoration is not applied before the matching
`local-asset-url` arrives, and on its arrival the decoration is applied
with the received URL. -/
theorem claim_C5_asset_request_scenario :
    ((runTrace initPState trC5).2.map (fun o => o.requested))
        = [false, false, true, false, false]
    ∧ ((runTrace initPState trC5).2.map (fun o => (o.applied, o.appliedUrl)))
        = [(false, none), (false, none), (false, none), (false, none),
           (true, some "http://host/img.png")]
    ∧ ((runTrace initPState trC5).2.countP (fun o => o.requested)) = 1 := by
  refine ⟨rfl, rfl, rfl⟩

/-- C9 counterexample: with the popup label present, in the target phase
with historic mode active, a synchronization whose element lookup fails
removes the label — element discovery is not independent of the label
lifecycle. -/
theorem claim_C9_counterexample :
    sC9.label = some "Lux"
    ∧ (pstep sC9 ⟨PEvent.timerUpdate, none⟩).1.label = none := by
  exact ⟨rfl, rfl⟩

/-- C9 amended: a historic-state message with a non-empty, non-sentinel
name creates or updates the label and resets its expiry timer; an empty,
sentinel or missing name removes it; no other event kind ever creates or
updates the label; but the label is not independent of element discovery:
an in-phase find-and-apply step whose element lookup fails removes the
label, while a successful lookup leaves it unchanged. -/
theorem claim_C9_label_amended :
    (∀ (s : PState) (a : Bool) (n : String), n ≠ "" → n ≠ "None" →
        (handleHistoricStateUpdate s a (some n)).1.label = some n
          ∧ (handleHistoricStateUpdate s a (some n)).2.labelTimerReset = true)
    ∧ (∀ (s : PState) (a : Bool) (nm : Option String),
        nm = none ∨ nm = some "" ∨ nm = some "None" →
        (handleHistoricStateUpdate s a nm).1.label = none
          ∧ (handleHistoricStateUpdate s a nm).2.labelTimerReset = false)
    ∧ (∀ (s : PState) (inp : PInput),
        (∀ a nm, inp.ev ≠ PEvent.historicState a nm) →
        (pstep s inp).1.label = s.label ∨ (pstep s inp).1.label = none)
    ∧ (∀ s : PState, s.isInChampSelect = true →
        (updateHistoricFlag s none).1.label = none)
    ∧ (∀ (s : PState) (el : Nat),
        (updateHistoricFlag s (some el)).1.label = s.label) := by
  refine ⟨?_, ?_, pstep_label_nonstate, ?_, updateHistoricFlag_label_found⟩
  · intro s a n h1 h2
    unfold handleHistoricStateUpdate handleHistoricSkinNameUpdate
    simp [h1, h2]
  · intro s a nm h
    unfold handleHistoricStateUpdate handleHistoricSkinNameUpdate
    rcases h with h | h | h <;> subst h <;> simp
  · intro s hin
    rw [updateHistoricFlag_none_eq s hin]
    by_cases hr : s.retryCount < 5 <;> simp [hr]

theorem claim_C9_label_amended_witness :
    (handleHistoricStateUpdate { isInChampSelect := true } true
        (some "Lux")).1.label = some "Lux"
    ∧ (handleHistoricStateUpdate { isInChampSelect := true } true
        (some "Lux")).2.labelTimerReset = true :=
  claim_C9_label_amended.1 { isInChampSelect := true } true "Lux"
    (by decide) (by decide)

/-- C10: a `local-asset-url` message with a non-matching assetPath or a
missing/empty url leaves the whole state (including the stored URL and the
pending marker) unchanged; while a request is pending, any step that is
not a resolving asset message emits no `request-local-asset` and keeps the
marker pending; hence over any trace without a resolving message, no
further request is ever emitted. -/
theorem claim_C10_nonmatching_asset :
    (∀ (s : PState) (ap : String) (u : Option String) (f : Option Nat),
        ap ≠ "historic_flag.png" ∨ u = none ∨ u = some "" →
        handleLocalAssetUrl s ap u f = (s, {}))
    ∧ (∀ (s : PState) (inp : PInput), s.pendingRequest = true →
        ¬ resolvesAsset inp →
        (pstep s inp).2.requested = false
          ∧ (pstep s inp).1.pendingRequest = true)
    ∧ (∀ (tr : List PInput) (s : PState), s.pendingRequest = true →
        (∀ inp ∈ tr, ¬ resolvesAsset inp) →
        ∀ o ∈ (runTrace s tr).2, o.requested = false) :=
  ⟨handleLocalAssetUrl_nonmatching, pstep_pending,
    fun tr s hp hnr => runTrace_no_request tr s hp hnr⟩

theorem claim_C10_nonmatching_asset_witness :
    handleLocalAssetUrl { pendingRequest := true } "other.png"
        (some "http://x") none = ({ pendingRequest := true }, {}) :=
  claim_C10_nonmatching_asset.1 { pendingRequest := true } "other.png"
    (some "http://x") none (Or.inl (by decide))

theorem foldl_bridgeSend_notReady (ms : List String) :
    ∀ q sent : List String,
      ms.foldl bridgeSend ⟨false, q, sent⟩ = ⟨false, q ++ ms, sent⟩ := by
  induction ms with
  | nil =>
    intro q sent
    simp
  | cons m rest ih =>
    intro q sent
    simp only [List.foldl_cons]
    have hone : bridgeSend ⟨false, q, sent⟩ m = ⟨false, q ++ [m], sent⟩ := by
      unfold bridgeSend
      simp
    rw [hone, ih]
    simp

/-- C8: messages sent while the connection is not ready are appended to the
outbound queue in order; the `onopen` flush transmits exactly the queue
contents, in enqueue order, appended once to the previously sent messages,
and then clears the queue. -/
theorem claim_C8_queue_order (q ms sentPrev : List String) :
    (ms.foldl bridgeSend ⟨false, q, sentPrev⟩).queue = q ++ ms
    ∧ (ms.foldl bridgeSend ⟨false, q, sentPrev⟩).sent = sentPrev
    ∧ (bridgeOnOpen (ms.foldl bridgeSend ⟨false, q, sentPrev⟩)).sent
        = sentPrev ++ (q ++ ms)
    ∧ (bridgeOnOpen (ms.foldl bridgeSend ⟨false, q, sentPrev⟩)).queue = []
    ∧ (bridgeOnOpen (ms.foldl bridgeSend ⟨false, q, sentPrev⟩)).ready
        = true := by
  rw [foldl_bridgeSend_notReady]
  refine ⟨rfl, rfl, ?_, ?_, ?_⟩ <;>
    · unfold bridgeOnOpen flushBridgeQueue
      by_cases hq : q ++ ms = []
      · simp [hq]
      · simp [hq]

/-! ### DOM decoration claims -/

theorem contains_classRemove {cs : List String} {c d : String}
    (h : cs.contains c = true) (hne : c ≠ d) :
    (classRemove cs d).contains c = true := by
  unfold classRemove
  simp only [List.elem_eq_mem, decide_eq_true_eq] at *
  exact List.mem_filter.mpr ⟨h, by simp [hne]⟩

/-- C3 counterexample: starting from an element with empty inline style and
no classes, apply-then-clear does not restore the style: `display` was
absent before apply and is forced to `none` afterwards. -/
theorem claim_C3_counterexample :
    getProp (hideFlagOnElement (applyFlagOnElement "http://host/img.png"
        ⟨[], []⟩)).style "display" = some "none"
    ∧ getProp (⟨[], []⟩ : Element).style "display" = none := by
  exact ⟨rfl, rfl⟩

/-- Effect of clear-after-apply on a style declaration that does not set
any of the removable decoration properties. -/
theorem getProp_flagClear_flagApply (st : Styles) (url : String) (p : String)
    (hclean : ∀ q ∈ flagRemovedProps, getProp st q = none) :
    getProp (flagClearStyle (flagApplyStyle url st)) p
        = if p = "display" then some "none"
          else if p = "visibility" then some "hidden"
          else if p = "opacity" then some "0"
          else getProp st p := by
  unfold flagClearStyle flagApplyStyle
  simp only [getProp_setProp, getProp_removeProp]
  by_cases h01 : p = "display"
  · subst h01; simp
  by_cases h02 : p = "visibility"
  · subst h02; simp
  by_cases h03 : p = "opacity"
  · subst h03; simp
  by_cases h04 : p = "background-image"
  · subst h04
    have hx := hclean "background-image" (by simp [flagRemovedProps])
    simp [hx]
  by_cases h05 : p = "background-repeat"
  · subst h05
    have hx := hclean "background-repeat" (by simp [flagRemovedProps])
    simp [hx]
  by_cases h06 : p = "background-size"
  · subst h06
    have hx := hclean "background-size" (by simp [flagRemovedProps])
    simp [hx]
  by_cases h07 : p = "height"
  · subst h07
    have hx := hclean "height" (by simp [flagRemovedProps])
    simp [hx]
  by_cases h08 : p = "width"
  · subst h08
    have hx := hclean "width" (by simp [flagRemovedProps])
    simp [hx]
  by_cases h09 : p = "position"
  · subst h09
    have hx := hclean "position" (by simp [flagRemovedProps])
    simp [hx]
  by_cases h10 : p = "right"
  · subst h10
    have hx := hclean "right" (by simp [flagRemovedProps])
    simp [hx]
  by_cases h11 : p = "top"
  · subst h11
    have hx := hclean "top" (by simp [flagRemovedProps])
    simp [hx]
  by_cases h12 : p = "pointer-events"
  · subst h12
    have hx := hclean "pointer-events" (by simp [flagRemovedProps])
    simp [hx]
  by_cases h13 : p = "cursor"
  · subst h13
    have hx := hclean "cursor" (by simp [flagRemovedProps])
    simp [hx]
  by_cases h14 : p = "-webkit-user-select"
  · subst h14
    have hx := hclean "-webkit-user-select" (by simp [flagRemovedProps])
    simp [hx]
  by_cases h15 : p = "list-style-type"
  · subst h15
    have hx := hclean "list-style-type" (by simp [flagRemovedProps])
    simp [hx]
  by_cases h16 : p = "content"
  · subst h16
    have hx := hclean "content" (by simp [flagRemovedProps])
    simp [hx]
  simp [h01, h02, h03, h04, h05, h06, h07, h08, h09, h10, h11, h12, h13,
    h14, h15, h16]

/-- C3 amended: for an element carrying neither marker class and none of
the removable decoration properties inline, clear-after-apply restores the
class list and every style property except `display`, `visibility` and
`opacity`, which are forced to `none` / `hidden` / `0` rather than restored
to their pre-apply values. -/
theorem claim_C3_roundtrip_amended (e : Element) (url : String)
    (hmark : e.classes.contains "lu-historic-flag-active" = false)
    (hrand : e.classes.contains "lu-random-flag-active" = false)
    (hclean : ∀ p ∈ flagRemovedProps, getProp e.style p = none) :
    (hideFlagOnElement (applyFlagOnElement url e)).classes = e.classes
    ∧ ∀ p, getProp (hideFlagOnElement (applyFlagOnElement url e)).style p
        = if p = "display" then some "none"
          else if p = "visibility" then some "hidden"
          else if p = "opacity" then some "0"
          else getProp e.style p := by
  obtain ⟨cs, st⟩ := e
  simp only at hmark hrand hclean
  have hmarkP : ¬ cs.contains "lu-historic-flag-active" = true := by
    rw [hmark]
    exact Bool.false_ne_true
  have hcls : classRemove (classAdd cs "lu-historic-flag-active")
      "lu-historic-flag-active" = cs := by
    unfold classAdd classRemove
    rw [if_neg hmarkP]
    rw [List.filter_append]
    rw [classes_filter_of_not_mem hmarkP]
    simp
  have heq : hideFlagOnElement (applyFlagOnElement url ⟨cs, st⟩)
      = ⟨cs, flagClearStyle (flagApplyStyle url st)⟩ := by
    unfold applyFlagOnElement hideFlagOnElement
    dsimp only
    rw [hcls, hrand]
    simp only [Bool.false_eq_true, if_false]
  rw [heq]
  constructor
  · rfl
  · intro p
    have hx := getProp_flagClear_flagApply st url p hclean
    dsimp only
    rw [hx]

theorem claim_C3_roundtrip_amended_witness :
    (hideFlagOnElement (applyFlagOnElement "http://host/img.png"
        ⟨["foo"], [("color", "red")]⟩)).classes = ["foo"]
    ∧ ∀ p, getProp (hideFlagOnElement (applyFlagOnElement "http://host/img.png"
        ⟨["foo"], [("color", "red")]⟩)).style p
        = if p = "display" then some "none"
          else if p = "visibility" then some "hidden"
          else if p = "opacity" then some "0"
          else getProp ([("color", "red")] : Styles) p :=
  claim_C3_roundtrip_amended ⟨["foo"], [("color", "red")]⟩
    "http://host/img.png" (by decide) (by decide)
    (by intro p hp; fin_cases hp <;> rfl)

/-- C4: when the coexisting random-flag marker class is present, clear
removes the historic marker class, removes the background-image property
exactly when its current value references `historic_flag.png`, and leaves
every other style property unchanged. -/
theorem claim_C4_coexistence (e : Element)
    (hrand : e.classes.contains "lu-random-flag-active" = true) :
    (hideFlagOnElement e).classes
        = classRemove e.classes "lu-historic-flag-active"
    ∧ (∀ p, p ≠ "background-image" →
        getProp (hideFlagOnElement e).style p = getProp e.style p)
    ∧ getProp (hideFlagOnElement e).style "background-image"
        = (if bgGate e.style then none
           else getProp e.style "background-image") := by
  obtain ⟨cs, st⟩ := e
  simp only at hrand
  have hrand' : (classRemove cs "lu-historic-flag-active").contains
      "lu-random-flag-active" = true :=
    contains_classRemove hrand (by decide)
  have heq : hideFlagOnElement ⟨cs, st⟩
      = ⟨classRemove cs "lu-historic-flag-active",
         if bgGate st then removeProp st "background-image" else st⟩ := by
    unfold hideFlagOnElement bgGate
    simp only [hrand', if_true]
    split <;> rfl
  rw [heq]
  refine ⟨rfl, ?_, ?_⟩
  · intro p hp
    by_cases hg : bgGate st
    · simp only [hg, if_true]
      show getProp (removeProp st "background-image") p = getProp st p
      rw [getProp_removeProp, if_neg hp]
    · simp only [hg, Bool.false_eq_true, if_false]
  · by_cases hg : bgGate st
    · simp only [hg, if_true]
      show getProp (removeProp st "background-image") "background-image"
        = none
      rw [getProp_removeProp, if_pos rfl]
    · simp only [hg, Bool.false_eq_true, if_false]

theorem claim_C4_coexistence_witness :
    (hideFlagOnElement ⟨["lu-random-flag-active", "lu-historic-flag-active"],
        [("background-image", "url(\"http://x/historic_flag.png\")"),
         ("height", "32px")]⟩).classes = ["lu-random-flag-active"]
    ∧ (∀ p, p ≠ "background-image" →
        getProp (hideFlagOnElement
          ⟨["lu-random-flag-active", "lu-historic-flag-active"],
           [("background-image", "url(\"http://x/historic_flag.png\")"),
            ("height", "32px")]⟩).style p
          = getProp ([("background-image",
              "url(\"http://x/historic_flag.png\")"),
              ("height", "32px")] : Styles) p)
    ∧ getProp (hideFlagOnElement
        ⟨["lu-random-flag-active", "lu-historic-flag-active"],
         [("background-image", "url(\"http://x/historic_flag.png\")"),
          ("height", "32px")]⟩).style "background-image"
        = (if bgGate [("background-image",
            "url(\"http://x/historic_flag.png\")"), ("height", "32px")]
           then none
           else getProp ([("background-image",
              "url(\"http://x/historic_flag.png\")"),
              ("height", "32px")] : Styles) "background-image") :=
  claim_C4_coexistence
    ⟨["lu-random-flag-active", "lu-historic-flag-active"],
     [("background-image", "url(\"http://x/historic_flag.png\")"),
      ("height", "32px")]⟩ (by decide)

/-! ### Port resolver claims -/

theorem loadBridgePort_eq (env : Env) :
    loadBridgePort env
      = match cachedOutcome env with
        | some q =>
          ⟨q, true, if cachedThrew env then none else env.cache⟩
        | none =>
          match defaultOutcome env with
          | some q => ⟨q, true, some (toString q)⟩
          | none =>
            match sweepOutcome env with
            | some q => ⟨q, true, some (toString q)⟩
            | none =>
              match legacyOutcome env with
              | some q => ⟨q, true, some (toString q)⟩
              | none =>
                ⟨50000, false,
                 if cachedThrew env then none else env.cache⟩ := by
  unfold loadBridgePort
  rw [step1Cache_eq]
  cases hco : cachedOutcome env <;> rfl

theorem cachedThrew_false_of_outcome (env : Env) (q : Nat)
    (h : cachedOutcome env = some q) : cachedThrew env = false := by
  unfold cachedOutcome at h
  unfold cachedThrew
  cases hp : cachedParsed env with
  | none => rfl
  | some p =>
    rw [hp] at h
    dsimp only at h ⊢
    cases hpr : env.probe p false with
    | err =>
      rw [hpr] at h
      simp [probeOutcome] at h
    | response ok body => rfl

theorem cachedOutcome_none_of_threw (env : Env)
    (ht : cachedThrew env = true) : cachedOutcome env = none := by
  unfold cachedThrew at ht
  unfold cachedOutcome
  cases hp : cachedParsed env with
  | none => rfl
  | some p =>
    rw [hp] at ht
    dsimp only at ht ⊢
    cases hpr : env.probe p false with
    | err => rfl
    | response ok body =>
      rw [hpr] at ht
      simp at ht

theorem loadBridgePort_drop_cache (env : Env)
    (ht : cachedThrew env = true) :
    loadBridgePort env = loadBridgePort { env with cache := none } := by
  have hco : cachedOutcome env = none := cachedOutcome_none_of_threw env ht
  rw [loadBridgePort_eq, loadBridgePort_eq]
  have h1 : cachedOutcome { env with cache := none } = none := rfl
  have h2 : cachedThrew { env with cache := none } = false := rfl
  rw [hco, h1, ht, h2]
  rfl

/-- C6: the resolver short-circuits in order — cached port, default port
50000, concurrent discovery sweep (persisting the find), legacy sweep,
then the hard-coded default with a `false` return; and when the cached
probe throws (times out), the cache is discarded and resolution proceeds
exactly as if no cache existed. -/
theorem claim_C6_resolver_order (env : Env) :
    (∀ q, cachedOutcome env = some q →
        loadBridgePort env = ⟨q, true, env.cache⟩)
    ∧ (cachedOutcome env = none → ∀ q, defaultOutcome env = some q →
        loadBridgePort env = ⟨q, true, some (toString q)⟩)
    ∧ (cachedOutcome env = none → defaultOutcome env = none →
        ∀ q, sweepOutcome env = some q →
        loadBridgePort env = ⟨q, true, some (toString q)⟩)
    ∧ (cachedOutcome env = none → defaultOutcome env = none →
        sweepOutcome env = none → ∀ q, legacyOutcome env = some q →
        loadBridgePort env = ⟨q, true, some (toString q)⟩)
    ∧ (cachedOutcome env = none → defaultOutcome env = none →
        sweepOutcome env = none → legacyOutcome env = none →
        (loadBridgePort env).port = 50000
          ∧ (loadBridgePort env).success = false)
    ∧ (cachedThrew env = true →
        loadBridgePort env = loadBridgePort { env with cache := none }) := by
  refine ⟨?_, ?_, ?_, ?_, ?_, loadBridgePort_drop_cache env⟩
  · intro q hq
    have hnt : cachedThrew env = false := cachedThrew_false_of_outcome env q hq
    rw [loadBridgePort_eq, hq, hnt]
    rfl
  · intro h0 q hq
    rw [loadBridgePort_eq, h0, hq]
  · intro h0 h1 q hq
    rw [loadBridgePort_eq, h0, h1, hq]
  · intro h0 h1 h2 q hq
    rw [loadBridgePort_eq, h0, h1, h2, hq]
  · intro h0 h1 h2 h3
    rw [loadBridgePort_eq, h0, h1, h2, h3]
    exact ⟨rfl, rfl⟩

theorem claim_C6_resolver_order_witness :
    loadBridgePort envW6 = ⟨50003, true, some "50003"⟩ :=
  (claim_C6_resolver_order envW6).2.2.1 (by decide) (by decide) 50003
    (by decide)

/-- C7 counterexample: a valid cached port whose probe fails with a
non-2xx response is NOT discarded from local storage — the cache survives
the failed probe, contradicting the claim that every failed probe of the
cached port discards the cached value. -/
theorem claim_C7_counterexample :
    cachedParsed envC7 = some 50002
    ∧ cachedOutcome envC7 = none
    ∧ (loadBridgePort envC7).cache = some "50002" := by
  refine ⟨by decide, by decide, by decide⟩

/-- C7 amended: non-2xx responses, timeouts and malformed bodies are
treated identically for resolution (the resolved port and the success flag
depend on the probes only through their classified outcomes, and none of
them escapes the resolver); but the cached value is discarded from local
storage only when the cached probe throws (timeout / network error) — a
non-2xx response or malformed body leaves the cached value in place. -/
theorem claim_C7_failure_handling_amended :
    (∀ env env' : Env,
        cachedOutcome env = cachedOutcome env' →
        defaultOutcome env = defaultOutcome env' →
        sweepOutcome env = sweepOutcome env' →
        legacyOutcome env = legacyOutcome env' →
        (loadBridgePort env).port = (loadBridgePort env').port
          ∧ (loadBridgePort env).success = (loadBridgePort env').success)
    ∧ (∀ env : Env, cachedThrew env = true →
        loadBridgePort env = loadBridgePort { env with cache := none })
    ∧ (∀ env : Env, cachedThrew env = false → cachedOutcome env = none →
        defaultOutcome env = none → sweepOutcome env = none →
        legacyOutcome env = none →
        (loadBridgePort env).cache = env.cache) := by
  refine ⟨?_, loadBridgePort_drop_cache, ?_⟩
  · intro env env' h1 h2 h3 h4
    rw [loadBridgePort_eq, loadBridgePort_eq, h1, h2, h3, h4]
    cases cachedOutcome env' with
    | some q => exact ⟨rfl, rfl⟩
    | none =>
      cases defaultOutcome env' with
      | some q => exact ⟨rfl, rfl⟩
      | none =>
        cases sweepOutcome env' with
        | some q => exact ⟨rfl, rfl⟩
        | none =>
          cases legacyOutcome env' with
          | some q => exact ⟨rfl, rfl⟩
          | none => exact ⟨rfl, rfl⟩
  · intro env hnt hco hdo hso hlo
    rw [loadBridgePort_eq, hco, hdo, hso, hlo, hnt]
    rfl

theorem claim_C7_failure_handling_amended_witness :
    (loadBridgePort envW7a).port = (loadBridgePort envW7b).port
      ∧ (loadBridgePort envW7a).success = (loadBridgePort envW7b).success :=
  claim_C7_failure_handling_amended.1 envW7a envW7b (by decide) (by decide)
    (by decide) (by decide)

end Rose
